import Mathlib

/-!
# DashTrack: verification of the calculation and aggregation core

Shallow embedding of the DashTrack shift-tracking application
(`app.js`, three deployed variants: a localStorage/IndexedDB variant with
`MPG = 26` and 24-hour `HH:MM` time inputs, and a Supabase variant with
`MPG = 30.9` and 12-hour `H:MM AM/PM` text inputs).

JavaScript numbers are modelled as `ℚ`; `NaN` is modelled as `none` in
`Option ℚ` at the points where the source can produce it.  `toFixed(2)`
display followed by `parseFloat` re-parsing is modelled by `round2`
(exact, since a two-decimal string re-parses to exactly its value).
Dates are modelled as proleptic-Gregorian civil dates with the timezone
offset taken to be zero, so the `getUTC*` and local accessors coincide,
matching the arithmetic of `new Date(Date.UTC(...))`, `getUTCDay`,
`setUTCDate` and millisecond subtraction in the source.
-/

/-! ## Numeric primitives -/

/-- `x.toFixed(2)` re-parsed as a number: round to the nearest multiple of
1/100, ties toward `+∞` on the magnitude (ECMA-262 `Number.prototype.toFixed`
picks the larger candidate on a tie; the sign is handled separately). -/
def round2 (q : ℚ) : ℚ :=
  if q < 0 then -((⌊(-q) * 100 + 1/2⌋ : ℚ) / 100)
  else (⌊q * 100 + 1/2⌋ : ℚ) / 100

/-- `Math.round`: round half toward `+∞`. -/
def jsRound (q : ℚ) : ℚ := (⌊q + 1/2⌋ : ℚ)

/-- Digit value of a character, `c.toNat - 48`. -/
def digitVal (c : Char) : ℕ := c.toNat - 48

/-- The whitespace class of JavaScript `\s` / `trim` (ASCII part). -/
def isJsSpace (c : Char) : Bool :=
  c = ' ' || c = '\t' || c = '\n' || c = '\r' || c = '\x0b' || c = '\x0c'

/-- `String.prototype.trim` on the character list. -/
def trimChars (cs : List Char) : List Char :=
  ((cs.dropWhile isJsSpace).reverse.dropWhile isJsSpace).reverse

/-- `String.prototype.toUpperCase` (ASCII letters). -/
def toUpperChar (c : Char) : Char :=
  if 'a' ≤ c ∧ c ≤ 'z' then Char.ofNat (c.toNat - 32) else c

/-! ## 12-hour time parsing (`parseTimeToMinutes`, Supabase variant)

Models the source regex match
`cleanTime.match(/^(\d{1,2}):(\d{2})\s*(AM|PM)$/)` applied to
`timeStr.trim().toUpperCase()`, followed by the range checks
`hours < 1 || hours > 12 || minutes < 0 || minutes > 59` and the
12-hour → minutes-since-midnight conversion. -/

/-- After hour and minutes: `\s*(AM|PM)$`. -/
def afterAmPm (h m : ℕ) (cs : List Char) : Option (ℕ × ℕ × Bool) :=
  if cs.dropWhile isJsSpace = ['A', 'M'] then some (h, m, false)
  else if cs.dropWhile isJsSpace = ['P', 'M'] then some (h, m, true)
  else none

/-- After the colon: `(\d{2})` then the AM/PM tail. -/
def afterColon (h : ℕ) (cs : List Char) : Option (ℕ × ℕ × Bool) :=
  match cs with
  | m1 :: m2 :: rest =>
      if m1.isDigit ∧ m2.isDigit then
        afterAmPm h (10 * digitVal m1 + digitVal m2) rest
      else none
  | _ => none

/-- After two hour digits: a colon must follow. -/
def afterTwoDigits (h : ℕ) (cs : List Char) : Option (ℕ × ℕ × Bool) :=
  match cs with
  | c :: rest2 => if c = ':' then afterColon h rest2 else none
  | [] => none

/-- The anchored regex `^(\d{1,2}):` part: one digit followed by `:`,
or two digits followed by `:`. -/
def matchClock (cs : List Char) : Option (ℕ × ℕ × Bool) :=
  match cs with
  | a :: b :: rest =>
      if a.isDigit then
        if b = ':' then afterColon (digitVal a) rest
        else if b.isDigit then afterTwoDigits (10 * digitVal a + digitVal b) rest
        else none
      else none
  | _ => none

/-- 12-hour value → minutes since midnight: `PM && h ≠ 12 → h += 12`,
`AM && h = 12 → h := 0`, then `h * 60 + m`. -/
def clockVal (h m : ℕ) (pm : Bool) : ℕ :=
  if pm ∧ h ≠ 12 then (h + 12) * 60 + m
  else if ¬pm ∧ h = 12 then m
  else h * 60 + m

/-- `parseTimeToMinutes` (source lines 1145–1170): `null` is `none`. -/
def parseTimeToMinutes (s : String) : Option ℕ :=
  if s = "" then none
  else
    match matchClock ((trimChars s.data).map toUpperChar) with
    | none => none
    | some (h, m, pm) =>
        if 1 ≤ h ∧ h ≤ 12 ∧ m ≤ 59 then some (clockVal h m pm)
        else none

/-! ## Elapsed minutes, 12-hour variant (`calculateTimeDifferenceMinutes`,
Supabase variant, source lines 1124–1138) -/

/-- `calculateTimeDifferenceMinutes(start, end)`: 0 on empty or unparseable
input, otherwise `end − start` with 1440 added when negative. -/
def calculateTimeDifferenceMinutes12h (start endT : String) : ℤ :=
  if start = "" ∨ endT = "" then 0
  else
    match parseTimeToMinutes start, parseTimeToMinutes endT with
    | some s, some e =>
        if (e : ℤ) - (s : ℤ) < 0 then (e : ℤ) - (s : ℤ) + 1440
        else (e : ℤ) - (s : ℤ)
    | _, _ => 0

/-- `getTotalBreakMinutes` (Supabase variant): rows where either side is
empty contribute nothing; complete rows contribute the rollover-adjusted
difference. -/
def getTotalBreakMinutes12h : List (String × String) → ℤ
  | [] => 0
  | b :: rest =>
      (if b.1 ≠ "" ∧ b.2 ≠ "" then calculateTimeDifferenceMinutes12h b.1 b.2
       else 0) + getTotalBreakMinutes12h rest

/-! ## Numeric string parsing

`parseFloatQ` models `parseFloat` on strings that are a plain decimal
literal (optional sign, digits, optional fractional digits); every other
string maps to `none` (`NaN`).  The prefix-salvaging behaviour of
`parseFloat` on strings such as `"12abc"` is outside the model; no claim
depends on such inputs.  `jsNumberQ` models the `Number` coercion used by
`.map(Number)`, which differs on the empty string (`Number("") === 0`). -/

/-- Unsigned decimal digits to a natural number. -/
def natOfDigits : List Char → ℕ → ℕ
  | [], acc => acc
  | c :: cs, acc => natOfDigits cs (acc * 10 + digitVal c)

/-- Parse `digits [. digits]` (at least one integer digit). -/
def parseUnsignedDec (cs : List Char) : Option ℚ :=
  let intPart := cs.takeWhile Char.isDigit
  let rest := cs.dropWhile Char.isDigit
  if intPart = [] then none
  else
    match rest with
    | [] => some (natOfDigits intPart 0 : ℚ)
    | '.' :: frac =>
        if frac ≠ [] ∧ frac.all Char.isDigit then
          some ((natOfDigits intPart 0 : ℚ) +
            (natOfDigits frac 0 : ℚ) / (10 ^ frac.length : ℚ))
        else none
    | _ => none

/-- Signed decimal literal. -/
def parseSignedDec (cs : List Char) : Option ℚ :=
  match cs with
  | '-' :: rest => (parseUnsignedDec rest).map (fun q => -q)
  | '+' :: rest => parseUnsignedDec rest
  | _ => parseUnsignedDec cs

/-- `parseFloat` on a plain decimal literal (whitespace-trimmed);
`none` is `NaN`. -/
def parseFloatQ (s : String) : Option ℚ :=
  parseSignedDec (trimChars s.data)

/-- `Number(s)`: the empty/whitespace-only string coerces to `0`. -/
def jsNumberQ (s : String) : Option ℚ :=
  let cs := trimChars s.data
  if cs = [] then some 0 else parseSignedDec cs

/-- `parseCommaNumber` (source): `NaN` on the empty string, otherwise
`parseFloat` of the string with every comma removed. -/
def parseCommaNumber (s : String) : Option ℚ :=
  if s = "" then none
  else parseFloatQ (String.mk (s.data.filter (fun c => !(c = ','))))

/-! ## Elapsed minutes, `HH:MM` variant (`calculateTimeDifferenceMinutes`,
localStorage/IndexedDB variants, source lines 138–149)

`start.split(':').map(Number)` destructured into two components; a missing
or non-numeric component makes the whole computation `NaN` (`none`). -/

/-- `HH:MM` string to minutes; `none` is `NaN` (including the
single-component case, where the destructured minute is `undefined`). -/
def hmToMinutes (s : String) : Option ℚ :=
  match (s.splitOn ":").map jsNumberQ with
  | a :: b :: _ =>
      match a, b with
      | some x, some y => some (x * 60 + y)
      | _, _ => none
  | _ => none

/-- `calculateTimeDifferenceMinutes` (`HH:MM` variant): 0 when either
argument is empty, otherwise `end − start` (+1440 on midnight crossing),
with `NaN` (`none`) propagated from unparseable components. -/
def calculateTimeDifferenceMinutesHHMM (start endT : String) : Option ℚ :=
  if start = "" ∨ endT = "" then some 0
  else
    match hmToMinutes start, hmToMinutes endT with
    | some s, some e => some (if e < s then e + 1440 - s else e - s)
    | _, _ => none

/-- `NaN`-propagating addition. -/
def nanAdd (a b : Option ℚ) : Option ℚ :=
  match a, b with
  | some x, some y => some (x + y)
  | _, _ => none

/-- `NaN`-propagating subtraction. -/
def nanSub (a b : Option ℚ) : Option ℚ :=
  match a, b with
  | some x, some y => some (x - y)
  | _, _ => none

/-- `Math.max` with `NaN` propagation (`Math.max(NaN, x) = NaN`). -/
def nanMax (a b : Option ℚ) : Option ℚ :=
  match a, b with
  | some x, some y => some (max x y)
  | _, _ => none

/-- `getTotalBreakMinutes` (`HH:MM` variants): complete rows accumulate
into `total` (`NaN` sticks once introduced). -/
def getTotalBreakMinutesHHMM : List (String × String) → Option ℚ
  | [] => some 0
  | b :: rest =>
      nanAdd
        (if b.1 ≠ "" ∧ b.2 ≠ "" then calculateTimeDifferenceMinutesHHMM b.1 b.2
         else some 0)
        (getTotalBreakMinutesHHMM rest)

/-! ## toFixed(2) rendering -/

/-- Two-digit zero-padded decimal string. -/
def pad2 (n : ℕ) : String := (if n < 10 then "0" else "") ++ toString n

/-- `toFixed(2)` of a non-negative rational. -/
def toFixed2StrNonneg (q : ℚ) : String :=
  let c := (⌊q * 100 + 1/2⌋).toNat
  toString (c / 100) ++ "." ++ pad2 (c % 100)

/-- `Number.prototype.toFixed(2)`: sign handled separately per ECMA-262. -/
def toFixed2Str (q : ℚ) : String :=
  if q < 0 then "-" ++ toFixed2StrNonneg (-q) else toFixed2StrNonneg q

/-! ## Supabase variant (`MPG = 30.9`, 12-hour times)

`recalculate` (source lines 1262–1330) writes derived values into display
elements with `toFixed(2)`; the submit handler (lines 1583–1630) re-parses
those displayed strings with `parseFloat(...) || 0`.  `none` below models
the `'–'` placeholder text (whose `parseFloat` is `NaN`). -/

def MPG_B : ℚ := 30.9

def DEFAULT_GAS_PRICE : ℚ := 3.272

/-- `replace('$', '')` with a string pattern replaces only the first
occurrence. -/
def removeFirstDollar : List Char → List Char
  | [] => []
  | c :: cs => if c = '$' then cs else c :: removeFirstDollar cs

/-- The price element text set on load (line 2138):
`'$' + DEFAULT_GAS_PRICE.toFixed(2)`. -/
def priceDisplayB : String := "$" ++ toFixed2Str DEFAULT_GAS_PRICE

/-- The price `recalculate` and the submit handler read back:
`parseFloat(dollarsPerGalInput.textContent.replace('$', ''))`. -/
def pricePerGalReadB : Option ℚ :=
  parseFloatQ (String.mk (removeFirstDollar priceDisplayB.data))

/-- Form snapshot of the Supabase variant. -/
structure FormB where
  date : String
  startTime : String
  endTime : String
  netEarnings : String
  milesStart : String
  milesEnd : String
  breaks : List (String × String)
deriving DecidableEq, Repr

/-- `miles = milesEnd - milesStart` when both odometer fields parse
(`recalculate`, full precision). -/
def milesFullB (f : FormB) : Option ℚ :=
  match parseCommaNumber f.milesStart, parseCommaNumber f.milesEnd with
  | some ms, some me => some (me - ms)
  | _, _ => none

/-- `gallons = miles / MPG` (full precision local variable). -/
def gallonsFullB (f : FormB) : Option ℚ :=
  (milesFullB f).map (fun m => m / MPG_B)

/-- `gasCost = gallons * pricePerGal` (full precision local variable). -/
def gasCostFullB (f : FormB) : Option ℚ :=
  match gallonsFullB f, pricePerGalReadB with
  | some g, some p => some (g * p)
  | _, _ => none

/-- One persisted shift record (Supabase variant entry object). -/
structure ShiftEntry where
  date : String
  start : String
  endT : String
  shiftMinutes : ℤ
  breakMinutes : ℤ
  workingMinutes : ℤ
  net : ℚ
  gross : ℚ
  milesStart : ℚ
  milesEnd : ℚ
  milesDriven : ℚ
  gallons : ℚ
  pricePerGal : ℚ
  gasCost : ℚ
  hourly : ℚ
  breaks : List (String × String)
deriving DecidableEq, Repr

/-- `validateTimeInput`: empty (after trim) is valid; otherwise the value
must parse. -/
def validateTimeInput (s : String) : Bool :=
  if trimChars s.data = [] then true else (parseTimeToMinutes s).isSome

/-- The entry object built by the Supabase submit handler
(lines 1583–1630).  Displayed `toFixed(2)` values re-parse to their
`round2`; the `'–'` placeholder re-parses to `NaN`, turned into 0 by
`|| 0`. -/
def buildEntryB (f : FormB) : ShiftEntry :=
  let grossPay := (parseFloatQ f.netEarnings).getD 0
  let milesStartV := (parseCommaNumber f.milesStart).getD 0
  let milesEndV := (parseCommaNumber f.milesEnd).getD 0
  let milesDrivenV := ((milesFullB f).map jsRound).getD 0
  let gallonsV := ((gallonsFullB f).map round2).getD 0
  let pricePerGalV := pricePerGalReadB.getD 0
  let gasCostV := ((gasCostFullB f).map round2).getD 0
  let netProfit := grossPay - gasCostV
  let shiftMinutesV := calculateTimeDifferenceMinutes12h f.startTime f.endTime
  let breakMinutesV := getTotalBreakMinutes12h f.breaks
  let workingMinutesV := max (shiftMinutesV - breakMinutesV) 0
  let hourlyV :=
    if 0 < workingMinutesV then netProfit / ((workingMinutesV : ℚ) / 60) else 0
  { date := f.date, start := f.startTime, endT := f.endTime,
    shiftMinutes := shiftMinutesV, breakMinutes := breakMinutesV,
    workingMinutes := workingMinutesV,
    net := netProfit, gross := grossPay,
    milesStart := milesStartV, milesEnd := milesEndV,
    milesDriven := milesDrivenV, gallons := gallonsV,
    pricePerGal := pricePerGalV, gasCost := gasCostV, hourly := hourlyV,
    breaks := f.breaks.filter (fun b => b.1 != "" && b.2 != "") }

/-- The submit handler guard: submission is rejected (no entry built) when
either time field is non-empty and unparseable. -/
def submitB (f : FormB) : Option ShiftEntry :=
  if validateTimeInput f.startTime ∧ validateTimeInput f.endTime then
    some (buildEntryB f)
  else none

/-- The `Hourly` cell of `renderEntries` (line 1703):
`$${entry.hourly.toFixed(2)}`. -/
def renderHourlyCellB (e : ShiftEntry) : String := "$" ++ toFixed2Str e.hourly

/-- The live-preview hourly field written by `recalculate`
(lines 1322–1329): a value only when the gross pay parses and
`workingMinutes > 0`, else the `'–'` placeholder. -/
def hourlyPreviewB (f : FormB) : String :=
  let shiftMinutesV := calculateTimeDifferenceMinutes12h f.startTime f.endTime
  let breakMinutesV := getTotalBreakMinutes12h f.breaks
  let workingMinutesV := max (shiftMinutesV - breakMinutesV) 0
  let gasCostV := (gasCostFullB f).getD 0
  match parseFloatQ f.netEarnings with
  | some grossPay =>
      if 0 < workingMinutesV then
        "$" ++ toFixed2Str ((grossPay - gasCostV) / ((workingMinutesV : ℚ) / 60))
      else "–"
  | none => "–"

/-! ## localStorage/IndexedDB variant (`MPG = 26`, `HH:MM` times)

`recalculate` (part_002 lines 119–179 and app.js lines 205–265) and the
submit handler (part_002 lines 234–299, app.js lines 320–392). -/

def MPG_A : ℚ := 26

/-- Form snapshot of the localStorage/IndexedDB variant; `dollarsPerGal`
is a real input there (filled with `DEFAULT_GAS_PRICE.toFixed(3)` on load
when empty). -/
structure FormA where
  date : String
  startTime : String
  endTime : String
  netEarnings : String
  milesStart : String
  milesEnd : String
  dollarsPerGal : String
  breaks : List (String × String)
deriving DecidableEq, Repr

/-- `miles = milesEnd - milesStart` when both odometer fields parse. -/
def milesFullA (f : FormA) : Option ℚ :=
  match parseCommaNumber f.milesStart, parseCommaNumber f.milesEnd with
  | some ms, some me => some (me - ms)
  | _, _ => none

/-- `gallons = miles / 26` (full precision local variable). -/
def gallonsFullA (f : FormA) : Option ℚ :=
  (milesFullA f).map (fun m => m / MPG_A)

/-- `gasCost = gallons * pricePerGal` (full precision local variable). -/
def gasCostFullA (f : FormA) : Option ℚ :=
  match gallonsFullA f, parseFloatQ f.dollarsPerGal with
  | some g, some p => some (g * p)
  | _, _ => none

/-- One persisted shift record of the localStorage/IndexedDB variant.
Its duration fields can be `NaN` (`none`) for time strings a
`type="time"` input could never produce. -/
structure ShiftEntryA where
  date : String
  start : String
  endT : String
  shiftMinutes : Option ℚ
  breakMinutes : Option ℚ
  workingMinutes : Option ℚ
  net : ℚ
  gross : ℚ
  milesStart : ℚ
  milesEnd : ℚ
  milesDriven : ℚ
  gallons : ℚ
  pricePerGal : ℚ
  gasCost : ℚ
  hourly : ℚ
  breaks : List (String × String)
deriving DecidableEq, Repr

/-- The entry object built by the localStorage/IndexedDB submit handler.
Displayed values (`value = x.toFixed(2)`) re-parse to `round2 x`; the
empty display re-parses to `NaN`, turned into 0 by `|| 0`. -/
def buildEntryA (f : FormA) : ShiftEntryA :=
  let grossPay := (parseFloatQ f.netEarnings).getD 0
  let milesStartV := (parseCommaNumber f.milesStart).getD 0
  let milesEndV := (parseCommaNumber f.milesEnd).getD 0
  let milesDrivenV := ((milesFullA f).map round2).getD 0
  let gallonsV := ((gallonsFullA f).map round2).getD 0
  let pricePerGalV := (parseFloatQ f.dollarsPerGal).getD 0
  let gasCostV := ((gasCostFullA f).map round2).getD 0
  let netProfit := grossPay - gasCostV
  let shiftMinutesV := calculateTimeDifferenceMinutesHHMM f.startTime f.endTime
  let breakMinutesV := getTotalBreakMinutesHHMM f.breaks
  let workingMinutesV := nanMax (nanSub shiftMinutesV breakMinutesV) (some 0)
  let hourlyV :=
    match workingMinutesV with
    | some w => if 0 < w then netProfit / (w / 60) else 0
    | none => 0
  { date := f.date, start := f.startTime, endT := f.endTime,
    shiftMinutes := shiftMinutesV, breakMinutes := breakMinutesV,
    workingMinutes := workingMinutesV,
    net := netProfit, gross := grossPay,
    milesStart := milesStartV, milesEnd := milesEndV,
    milesDriven := milesDrivenV, gallons := gallonsV,
    pricePerGal := pricePerGalV, gasCost := gasCostV, hourly := hourlyV,
    breaks := f.breaks.filter (fun b => b.1 != "" && b.2 != "") }

/-! ## Calendar dates and week buckets

`ℚ`-free civil-date arithmetic modelling ECMAScript `Date` at UTC offset
zero: `daysFromCivil` is the day number of a proleptic-Gregorian date
relative to 1970-01-01 (so `Date.UTC(y, m-1, d) / 86400000`), and
`civilFromDays` is its inverse (the year/month/day accessors). -/

/-- A civil (proleptic Gregorian) calendar date. -/
structure CivilDate where
  year : ℤ
  month : ℤ
  day : ℤ
deriving DecidableEq, Repr

/-- Days since 1970-01-01 of a civil date (proleptic Gregorian). -/
def daysFromCivil (dt : CivilDate) : ℤ :=
  let y := if dt.month ≤ 2 then dt.year - 1 else dt.year
  let era := Int.fdiv y 400
  let yoe := y - era * 400
  let mp := Int.emod (dt.month + 9) 12
  let doy := Int.fdiv (153 * mp + 2) 5 + dt.day - 1
  let doe := yoe * 365 + Int.fdiv yoe 4 - Int.fdiv yoe 100 + doy
  era * 146097 + doe - 719468

/-- Civil date of a day number (inverse of `daysFromCivil`). -/
def civilFromDays (z : ℤ) : CivilDate :=
  let z2 := z + 719468
  let era := Int.fdiv z2 146097
  let doe := z2 - era * 146097
  let yoe :=
    Int.fdiv (doe - Int.fdiv doe 1460 + Int.fdiv doe 36524 - Int.fdiv doe 146096) 365
  let y := yoe + era * 400
  let doy := doe - (365 * yoe + Int.fdiv yoe 4 - Int.fdiv yoe 100)
  let mp := Int.fdiv (5 * doy + 2) 153
  let d := doy - Int.fdiv (153 * mp + 2) 5 + 1
  let m := Int.emod (mp + 2) 12 + 1
  ⟨if m ≤ 2 then y + 1 else y, m, d⟩

/-- `getUTCDay` / `getDay` (0 = Sunday); 1970-01-01 was a Thursday. -/
def jsWeekday (n : ℤ) : ℤ := Int.emod (n + 4) 7

/-- Thursday-anchor shift of `getWeekNumber` (app.js lines 465–473):
`dayNum = getUTCDay() || 7`, then `date + 4 - dayNum`. -/
def thuAnchor (dt : CivilDate) : ℤ :=
  let n := daysFromCivil dt
  let w := jsWeekday n
  let dayNum := if w = 0 then 7 else w
  n + 4 - dayNum

/-- Saturday-anchor shift of `getWeekNumber` (app.js lines 1739–1747):
`dayNum = getDay()`, then `date + 6 - dayNum`. -/
def satAnchor (dt : CivilDate) : ℤ :=
  let n := daysFromCivil dt
  n + 6 - jsWeekday n

/-- `Math.ceil(((anchor - yearStart) / 86400000 + 1) / 7)` where
`yearStart` is January 1 of the anchor day's own year
(`⌈k/7⌉ = ⌊(k+6)/7⌋` for every integer `k`). -/
def weekFromAnchor (a : ℤ) : ℤ :=
  let yearStart := daysFromCivil ⟨(civilFromDays a).year, 1, 1⟩
  Int.fdiv (a - yearStart + 1 + 6) 7

/-- `getWeekNumber`, Thursday-anchor variant. -/
def getWeekNumberThu (dt : CivilDate) : ℤ := weekFromAnchor (thuAnchor dt)

/-- `getWeekNumber`, Saturday-anchor variant. -/
def getWeekNumberSat (dt : CivilDate) : ℤ := weekFromAnchor (satAnchor dt)

/-- The week bucket `updateSummaries` compares records by (Thursday
variant): week number from the anchored algorithm, year from the record
date's own `getFullYear()` (lines 499–502). -/
def weekBucketThu (dt : CivilDate) : ℤ × ℤ := (getWeekNumberThu dt, dt.year)

/-- The week bucket of the Saturday-anchor `updateSummaries`
(lines 1775–1778). -/
def weekBucketSat (dt : CivilDate) : ℤ × ℤ := (getWeekNumberSat dt, dt.year)

/-- `new Date("YYYY-MM-DD")` on the ISO calendar-date fast path; any other
string is an Invalid Date (`none`). -/
def parseIsoDate (s : String) : Option CivilDate :=
  match s.splitOn "-" with
  | [y, m, d] =>
      if y.data.length = 4 ∧ y.data.all Char.isDigit ∧
         m.data.length = 2 ∧ m.data.all Char.isDigit ∧
         d.data.length = 2 ∧ d.data.all Char.isDigit ∧
         1 ≤ natOfDigits m.data 0 ∧ natOfDigits m.data 0 ≤ 12 ∧
         1 ≤ natOfDigits d.data 0 ∧ natOfDigits d.data 0 ≤ 31 then
        some ⟨natOfDigits y.data 0, natOfDigits m.data 0, natOfDigits d.data 0⟩
      else none
  | _ => none

/-! ## Summaries and backup import (Supabase variant) -/

/-- The three summary strings shown in the UI. -/
structure SummaryView where
  week : String
  overall : String
  avgHourly : String
deriving DecidableEq, Repr

/-- Membership test of the current-week partition:
`entryWeek === currentWeek && entryYear === currentYear`
(an invalid record date yields `NaN` comparisons, hence `false`). -/
def inCurrentWeekSat (today : CivilDate) (dateStr : String) : Bool :=
  match parseIsoDate dateStr with
  | some d => getWeekNumberSat d = getWeekNumberSat today ∧ d.year = today.year
  | none => false

/-- `updateSummaries` (Supabase variant, lines 1752–1805): the empty
collection short-circuits to the all-placeholder view; otherwise net,
gross and working minutes are summed over all records and over the
current-week partition, and the average hourly is guarded to a
placeholder when the total working minutes are 0. -/
def updateSummariesB (entries : List ShiftEntry) (today : CivilDate)
    (showGross : Bool) : SummaryView :=
  if entries.length = 0 then ⟨"–", "–", "–"⟩
  else
    let totalNet := (entries.map (·.net)).sum
    let totalGross := (entries.map (·.gross)).sum
    let totalMinutes := (entries.map (fun e => (e.workingMinutes : ℚ))).sum
    let weekEntries := entries.filter (fun e => inCurrentWeekSat today e.date)
    let weekNet := (weekEntries.map (·.net)).sum
    let weekGross := (weekEntries.map (·.gross)).sum
    if showGross then
      ⟨"$" ++ toFixed2Str weekGross, "$" ++ toFixed2Str totalGross,
       if 0 < totalMinutes then "$" ++ toFixed2Str (totalGross / (totalMinutes / 60))
       else "–"⟩
    else
      ⟨"$" ++ toFixed2Str weekNet, "$" ++ toFixed2Str totalNet,
       if 0 < totalMinutes then "$" ++ toFixed2Str (totalNet / (totalMinutes / 60))
       else "–"⟩

/-- `importFromJson` merge step (lines 2052–2062): the set of existing
dates is computed once from the current collection, and every incoming
entry whose date is not in that set is appended in order. -/
def importEntries (existing incoming : List ShiftEntry) : List ShiftEntry :=
  let existingDates := existing.map (·.date)
  existing ++ incoming.filter (fun e => !(existingDates.contains e.date))

/-- `exportToJson` serializes the entry collection itself (lines
2020–2039); re-importing a backup presents exactly the exported entries. -/
def exportedEntries (entries : List ShiftEntry) : List ShiftEntry := entries

/-! ## Concrete form snapshots used by closed instances -/

/-- A Supabase-variant submission with a break (used for the
working-minutes invariant). -/
def formBreakShift : FormB :=
  ⟨"2025-03-01", "9:00 AM", "5:00 PM", "100", "", "",
   [("10:00 AM", "10:30 AM")]⟩

/-- A Supabase-variant submission with equal start and end times
(zero-duration shift). -/
def formZeroShift : FormB :=
  ⟨"2025-08-25", "9:00 AM", "9:00 AM", "120", "", "", []⟩

/-- A Supabase-variant submission with odometer readings 1000 → 1100. -/
def formMilesB : FormB :=
  ⟨"2025-08-25", "9:00 AM", "5:00 PM", "120", "1000", "1100", []⟩

/-- A localStorage-variant submission with odometer readings 1000 → 1100
and the default gas price. -/
def formMilesA : FormA :=
  ⟨"2025-01-15", "09:00", "17:00", "100", "1000", "1100", "3.272", []⟩

/-- A concrete record dated 2025-01-01. -/
def entryJan1 : ShiftEntry :=
  ⟨"2025-01-01", "9:00 AM", "5:00 PM", 480, 0, 480, 90, 100,
   0, 0, 0, 0, 0, 0, 0, []⟩

/-- A different concrete record with the same date 2025-01-01. -/
def entryJan1Dup : ShiftEntry :=
  ⟨"2025-01-01", "1:00 PM", "6:00 PM", 300, 0, 300, 60, 70,
   0, 0, 0, 0, 0, 0, 0, []⟩

/-- A concrete record dated 2025-01-02. -/
def entryJan2 : ShiftEntry :=
  ⟨"2025-01-02", "9:00 AM", "5:00 PM", 480, 30, 450, 80, 95,
   0, 0, 0, 0, 0, 0, 0, []⟩

/-- A second concrete record also dated 2025-01-02. -/
def entryJan2b : ShiftEntry :=
  ⟨"2025-01-02", "7:00 PM", "11:00 PM", 240, 0, 240, 40, 50,
   0, 0, 0, 0, 0, 0, 0, []⟩

/-- A concrete record with zero working minutes. -/
def entryZeroWork : ShiftEntry :=
  ⟨"2025-01-03", "9:00 AM", "9:00 AM", 0, 0, 0, 120, 120,
   0, 0, 0, 0, 0, 0, 0, []⟩

/-! ## Helper lemmas -/

theorem dropWhile_append_of_forall {p : Char → Bool} {sp l : List Char}
    (h : ∀ c ∈ sp, p c = true) :
    (sp ++ l).dropWhile p = l.dropWhile p := by
  induction sp with
  | nil => rfl
  | cons a sp ih =>
      have ha : p a = true := h a (by simp)
      simp only [List.cons_append, List.dropWhile_cons, ha, if_true]
      exact ih (fun c hc => h c (by simp [hc]))

theorem dropWhile_eq_self_of_head {p : Char → Bool} {a : Char} {l : List Char}
    (h : p a = false) : (a :: l).dropWhile p = a :: l := by
  simp [List.dropWhile_cons, h]

theorem isDigit_ne_colon {c : Char} (h : c.isDigit = true) : ¬(c = ':') := by
  intro hc
  subst hc
  simp [Char.isDigit] at h

/-! ## Spec-side shape of a valid clock string (for claim C4)

Modelled from the spec: "strings matching `H:MM AM/PM` (1–2 digit hour,
exactly 2-digit minute, case-insensitive AM/PM, optional surrounding
whitespace)", with the whitespace before AM/PM optional (`\s*`), stated
about the trimmed, upper-cased character list. -/

/-- A 1- or 2-digit hour group with value `h`. -/
def hourRep (hd : List Char) (h : ℕ) : Prop :=
  (∃ a, hd = [a] ∧ a.isDigit = true ∧ digitVal a = h) ∨
  (∃ a b, hd = [a, b] ∧ a.isDigit = true ∧ b.isDigit = true ∧
    10 * digitVal a + digitVal b = h)

/-- The `AM`/`PM` tail. -/
def ampmChars (pm : Bool) : List Char := if pm then ['P', 'M'] else ['A', 'M']


theorem afterAmPm_eq_some {h m : ℕ} {cs : List Char} {r : ℕ × ℕ × Bool} :
    afterAmPm h m cs = some r ↔
    ∃ pm sp, (∀ c ∈ sp, isJsSpace c = true) ∧
      cs = sp ++ ampmChars pm ∧ r = (h, m, pm) := by
  constructor
  · intro hp
    rw [afterAmPm] at hp
    split_ifs at hp with h1 h2
    · refine ⟨false, cs.takeWhile isJsSpace,
        fun c hc => List.mem_takeWhile_imp hc, ?_, (Option.some_inj.mp hp).symm⟩
      conv_lhs => rw [← List.takeWhile_append_dropWhile isJsSpace cs]
      rw [h1]
      rfl
    · refine ⟨true, cs.takeWhile isJsSpace,
        fun c hc => List.mem_takeWhile_imp hc, ?_, (Option.some_inj.mp hp).symm⟩
      conv_lhs => rw [← List.takeWhile_append_dropWhile isJsSpace cs]
      rw [h2]
      rfl
  · rintro ⟨pm, sp, hsp, rfl, rfl⟩
    have hdw : (sp ++ ampmChars pm).dropWhile isJsSpace = ampmChars pm := by
      rw [dropWhile_append_of_forall hsp]
      cases pm <;> rfl
    cases pm
    · rw [afterAmPm, hdw]
      rfl
    · rw [afterAmPm, hdw]
      rfl

theorem afterColon_eq_some {h0 : ℕ} {cs : List Char} {r : ℕ × ℕ × Bool} :
    afterColon h0 cs = some r ↔
    ∃ m1 m2 pm sp, m1.isDigit = true ∧ m2.isDigit = true ∧
      (∀ c ∈ sp, isJsSpace c = true) ∧
      cs = m1 :: m2 :: (sp ++ ampmChars pm) ∧
      r = (h0, 10 * digitVal m1 + digitVal m2, pm) := by
  constructor
  · intro hp
    match cs with
    | [] => exact absurd hp (by simp [afterColon])
    | [x] => exact absurd hp (by simp [afterColon])
    | m1 :: m2 :: rest =>
        simp only [afterColon] at hp
        split_ifs at hp with hdig
        · obtain ⟨pm, sp, hsp, hrest, hr⟩ := afterAmPm_eq_some.mp hp
          exact ⟨m1, m2, pm, sp, by simp [hdig.1], by simp [hdig.2], hsp,
            by rw [hrest], hr⟩
  · rintro ⟨m1, m2, pm, sp, h1, h2, hsp, rfl, rfl⟩
    simp only [afterColon]
    rw [if_pos ⟨by simp [h1], by simp [h2]⟩]
    exact afterAmPm_eq_some.mpr ⟨pm, sp, hsp, rfl, rfl⟩

theorem matchClock_eq_some {cs : List Char} {r : ℕ × ℕ × Bool} :
    matchClock cs = some r ↔
    ∃ h pm hd m1 m2 sp, hourRep hd h ∧ m1.isDigit = true ∧ m2.isDigit = true ∧
      (∀ c ∈ sp, isJsSpace c = true) ∧
      cs = hd ++ ':' :: m1 :: m2 :: (sp ++ ampmChars pm) ∧
      r = (h, 10 * digitVal m1 + digitVal m2, pm) := by
  constructor
  · intro hp
    match cs with
    | [] => exact absurd hp (by simp [matchClock])
    | [x] => exact absurd hp (by simp [matchClock])
    | a :: b :: rest =>
        simp only [matchClock] at hp
        split_ifs at hp with ha hb hbd
        · obtain ⟨m1, m2, pm, sp, h1, h2, hsp, hrest, hr⟩ := afterColon_eq_some.mp hp
          exact ⟨digitVal a, pm, [a], m1, m2, sp,
            Or.inl ⟨a, rfl, ha, rfl⟩, h1, h2, hsp, by rw [hb, hrest]; rfl, hr⟩
        · match rest with
          | [] => exact absurd hp (by simp [afterTwoDigits])
          | c :: rest2 =>
              simp only [afterTwoDigits] at hp
              split_ifs at hp with hc
              · obtain ⟨m1, m2, pm, sp, h1, h2, hsp, hrest, hr⟩ :=
                  afterColon_eq_some.mp hp
                exact ⟨10 * digitVal a + digitVal b, pm, [a, b], m1, m2, sp,
                  Or.inr ⟨a, b, rfl, ha, hbd, rfl⟩, h1, h2, hsp,
                  by rw [hc, hrest]; rfl, hr⟩
  · rintro ⟨h, pm, hd, m1, m2, sp, hrep, h1, h2, hsp, rfl, rfl⟩
    rcases hrep with ⟨a, rfl, ha, rfl⟩ | ⟨a, b, rfl, ha, hb, rfl⟩
    · show matchClock (a :: ':' :: m1 :: m2 :: (sp ++ ampmChars pm)) = _
      simp only [matchClock]
      rw [if_pos ha, if_pos trivial]
      exact afterColon_eq_some.mpr ⟨m1, m2, pm, sp, h1, h2, hsp, rfl, rfl⟩
    · show matchClock (a :: b :: ':' :: m1 :: m2 :: (sp ++ ampmChars pm)) = _
      simp only [matchClock]
      rw [if_pos ha, if_neg (isDigit_ne_colon hb), if_pos hb]
      simp only [afterTwoDigits]
      rw [if_pos trivial]
      exact afterColon_eq_some.mpr ⟨m1, m2, pm, sp, h1, h2, hsp, rfl, rfl⟩

/-- Full characterization of `parseTimeToMinutes`: it succeeds exactly on
the valid clock shapes, producing the 12-hour conversion value. -/
theorem parseTimeToMinutes_eq_some {s : String} {v : ℕ} :
    parseTimeToMinutes s = some v ↔
    ∃ h m pm hd m1 m2 sp, hourRep hd h ∧
      m1.isDigit = true ∧ m2.isDigit = true ∧ 10 * digitVal m1 + digitVal m2 = m ∧
      1 ≤ h ∧ h ≤ 12 ∧ m ≤ 59 ∧ (∀ c ∈ sp, isJsSpace c = true) ∧
      (trimChars s.data).map toUpperChar =
        hd ++ ':' :: m1 :: m2 :: (sp ++ ampmChars pm) ∧
      v = clockVal h m pm := by
  constructor
  · intro hp
    rw [parseTimeToMinutes] at hp
    split_ifs at hp with hs
    cases hmc : matchClock ((trimChars s.data).map toUpperChar) with
    | none => rw [hmc] at hp; exact absurd hp (by simp)
    | some t =>
        rw [hmc] at hp
        obtain ⟨h, m, pm⟩ := t
        simp only at hp
        split_ifs at hp with hg
        obtain ⟨hh1, hh2, hm59⟩ := hg
        have hv : v = clockVal h m pm := (Option.some_inj.mp hp).symm
        obtain ⟨h', pm', hd, m1, m2, sp, hrep, h1, h2, hsp, hshape, hr⟩ :=
          matchClock_eq_some.mp hmc
        obtain ⟨e1, e2, e3⟩ : h = h' ∧ m = 10 * digitVal m1 + digitVal m2 ∧
            pm = pm' := by simpa [Prod.ext_iff] using hr
        rw [← e1] at hrep
        rw [← e3] at hshape
        exact ⟨h, m, pm, hd, m1, m2, sp, hrep, h1, h2, e2.symm,
          hh1, hh2, hm59, hsp, hshape, hv⟩
  · rintro ⟨h, m, pm, hd, m1, m2, sp, hrep, h1, h2, hm, hh1, hh2, hm59, hsp,
      hshape, hv⟩
    have hs : ¬(s = "") := by
      intro hs0
      subst hs0
      have hnil : (trimChars "".data).map toUpperChar = [] := rfl
      rw [hnil] at hshape
      rcases hrep with ⟨a, rfl, _, _⟩ | ⟨a, b, rfl, _, _, _⟩ <;> simp at hshape
    rw [parseTimeToMinutes, if_neg hs]
    have hmc : matchClock ((trimChars s.data).map toUpperChar) = some (h, m, pm) :=
      matchClock_eq_some.mpr
        ⟨h, pm, hd, m1, m2, sp, hrep, h1, h2, hsp, hshape, by rw [hm]⟩
    rw [hmc]
    show (if 1 ≤ h ∧ h ≤ 12 ∧ m ≤ 59 then some (clockVal h m pm) else none) = some v
    rw [if_pos ⟨hh1, hh2, hm59⟩, hv]

/-- **C4**: `parseTimeToMinutes` accepts exactly the strings whose trimmed,
upper-cased form is a 1–2 digit hour in 1..12, a colon, exactly two minute
digits with value ≤ 59, optional whitespace, and `AM`/`PM`
(case-insensitivity and surrounding whitespace being absorbed by the
trim/upper-case normalisation, with the separating whitespace optional);
it maps 12 AM to 0 and 12 PM to 720 minutes since midnight, and every
other shape — including 24-hour strings and `"13:00 PM"` — parses to
`none`, never to a silently accepted value. -/
theorem parseTimeOfDay_accepts_exactly_clock_shape :
    (∀ (s : String) (v : ℕ),
       parseTimeToMinutes s = some v ↔
       ∃ h m pm hd m1 m2 sp, hourRep hd h ∧
         m1.isDigit = true ∧ m2.isDigit = true ∧
         10 * digitVal m1 + digitVal m2 = m ∧
         1 ≤ h ∧ h ≤ 12 ∧ m ≤ 59 ∧ (∀ c ∈ sp, isJsSpace c = true) ∧
         (trimChars s.data).map toUpperChar =
           hd ++ ':' :: m1 :: m2 :: (sp ++ ampmChars pm) ∧
         v = clockVal h m pm) ∧
    (∀ m, clockVal 12 m false = m) ∧
    (∀ m, clockVal 12 m true = 720 + m) ∧
    parseTimeToMinutes "12:00 AM" = some 0 ∧
    parseTimeToMinutes "12:00 PM" = some 720 ∧
    parseTimeToMinutes "13:00 PM" = none ∧
    parseTimeToMinutes "17:30" = none ∧
    parseTimeToMinutes "9:30" = none := by
  refine ⟨fun s v => parseTimeToMinutes_eq_some, ?_, ?_, ?_, ?_, ?_, ?_, ?_⟩
  · intro m
    simp [clockVal]
  · intro m
    simp [clockVal]
  all_goals decide

/-- Any successfully parsed clock value is below 1440. -/
theorem parseTimeToMinutes_lt_1440 {s : String} {v : ℕ}
    (h : parseTimeToMinutes s = some v) : v < 1440 := by
  rw [parseTimeToMinutes] at h
  split_ifs at h with hs
  cases hmc : matchClock ((trimChars s.data).map toUpperChar) with
  | none => rw [hmc] at h; exact absurd h (by simp)
  | some t =>
      rw [hmc] at h
      obtain ⟨hh, m, pm⟩ := t
      simp only at h
      split_ifs at h with hg
      obtain ⟨h1, h2, h3⟩ := hg
      have hv : clockVal hh m pm = v := Option.some_inj.mp h
      rw [clockVal] at hv
      split_ifs at hv <;> omega

/-- **C5**: `calculateTimeDifferenceMinutes` (12-hour variant) returns 0
when either argument is empty or unparseable; otherwise it returns
`end − start`, adding 1440 when negative, and the result is always a
non-negative integer; concretely 9:00 AM → 5:00 PM is 480 and
11:00 PM → 1:00 AM is 120. -/
theorem elapsedMinutes_behaviour :
    (∀ t, calculateTimeDifferenceMinutes12h "" t = 0) ∧
    (∀ s, calculateTimeDifferenceMinutes12h s "" = 0) ∧
    (∀ s t, parseTimeToMinutes s = none →
       calculateTimeDifferenceMinutes12h s t = 0) ∧
    (∀ s t, parseTimeToMinutes t = none →
       calculateTimeDifferenceMinutes12h s t = 0) ∧
    (∀ (s t : String) (a b : ℕ), parseTimeToMinutes s = some a →
       parseTimeToMinutes t = some b →
       calculateTimeDifferenceMinutes12h s t =
         if (b : ℤ) - (a : ℤ) < 0 then (b : ℤ) - (a : ℤ) + 1440
         else (b : ℤ) - (a : ℤ)) ∧
    (∀ s t, 0 ≤ calculateTimeDifferenceMinutes12h s t) ∧
    calculateTimeDifferenceMinutes12h "9:00 AM" "5:00 PM" = 480 ∧
    calculateTimeDifferenceMinutes12h "11:00 PM" "1:00 AM" = 120 := by
  refine ⟨?_, ?_, ?_, ?_, ?_, ?_, by decide, by decide⟩
  · intro t
    rw [calculateTimeDifferenceMinutes12h, if_pos (Or.inl rfl)]
  · intro s
    rw [calculateTimeDifferenceMinutes12h, if_pos (Or.inr rfl)]
  · intro s t hn
    rw [calculateTimeDifferenceMinutes12h]
    split_ifs with he
    · rfl
    · rw [hn]
  · intro s t hn
    rw [calculateTimeDifferenceMinutes12h]
    split_ifs with he
    · rfl
    · rw [hn]
      cases parseTimeToMinutes s <;> rfl
  · intro s t a b ha hb
    have hse : ¬(s = "") := by
      intro h0
      rw [h0] at ha
      exact absurd ha (by simp [parseTimeToMinutes])
    have hte : ¬(t = "") := by
      intro h0
      rw [h0] at hb
      exact absurd hb (by simp [parseTimeToMinutes])
    rw [calculateTimeDifferenceMinutes12h,
      if_neg (by simp [hse, hte]), ha, hb]
  · intro s t
    rw [calculateTimeDifferenceMinutes12h]
    split_ifs with he
    · exact le_refl 0
    · cases ha : parseTimeToMinutes s with
      | none => cases parseTimeToMinutes t <;> simp
      | some a =>
          cases hb : parseTimeToMinutes t with
          | none => simp
          | some b =>
              have hlt : a < 1440 := parseTimeToMinutes_lt_1440 ha
              simp only
              split_ifs with hneg
              · omega
              · omega

/-- Witness: the C5 general formula applied at 9:00 AM → 5:00 PM. -/
theorem elapsedMinutes_behaviour_witness :
    parseTimeToMinutes "9:00 AM" = some 540 ∧
    parseTimeToMinutes "5:00 PM" = some 1020 ∧
    calculateTimeDifferenceMinutes12h "9:00 AM" "5:00 PM" =
      (if ((1020 : ℤ) - (540 : ℤ) < 0) then (1020 : ℤ) - (540 : ℤ) + 1440
       else (1020 : ℤ) - (540 : ℤ)) :=
  ⟨by decide, by decide,
   elapsedMinutes_behaviour.2.2.2.2.1 "9:00 AM" "5:00 PM" 540 1020
     (by decide) (by decide)⟩

/-! ## Working-minutes invariant (claim C6) -/

theorem calc12h_nonneg (s t : String) :
    0 ≤ calculateTimeDifferenceMinutes12h s t := by
  rw [calculateTimeDifferenceMinutes12h]
  split_ifs with he
  · exact le_refl 0
  · cases ha : parseTimeToMinutes s with
    | none => cases parseTimeToMinutes t <;> simp
    | some a =>
        cases hb : parseTimeToMinutes t with
        | none => simp
        | some b =>
            have hlt : a < 1440 := parseTimeToMinutes_lt_1440 ha
            simp only
            split_ifs with hneg <;> omega

theorem breaks12h_nonneg (bs : List (String × String)) :
    0 ≤ getTotalBreakMinutes12h bs := by
  induction bs with
  | nil => rw [getTotalBreakMinutes12h]
  | cons b rest ih =>
      rw [getTotalBreakMinutes12h]
      have hb : 0 ≤ (if b.1 ≠ "" ∧ b.2 ≠ "" then
          calculateTimeDifferenceMinutes12h b.1 b.2 else 0) := by
        split_ifs with h
        · exact calc12h_nonneg b.1 b.2
        · exact le_refl 0
      omega

/-- A value a `type="time"` input can hold: empty, or a clock string whose
parsed minutes lie in `[0, 1440)`. -/
def timeInputOk (s : String) : Prop :=
  s = "" ∨ ∃ t : ℚ, hmToMinutes s = some t ∧ 0 ≤ t ∧ t < 1440

theorem calcHHMM_ok {s t : String} (hs : timeInputOk s) (ht : timeInputOk t) :
    ∃ q : ℚ, calculateTimeDifferenceMinutesHHMM s t = some q ∧ 0 ≤ q := by
  rw [calculateTimeDifferenceMinutesHHMM]
  split_ifs with he
  · exact ⟨0, rfl, le_refl 0⟩
  · push_neg at he
    rcases hs with rfl | ⟨a, hsa, ha0, ha1⟩
    · exact absurd rfl he.1
    rcases ht with rfl | ⟨b, htb, hb0, hb1⟩
    · exact absurd rfl he.2
    rw [hsa, htb]
    show ∃ q : ℚ, some (if b < a then b + 1440 - a else b - a) = some q ∧ 0 ≤ q
    split_ifs with hlt
    · exact ⟨b + 1440 - a, rfl, by linarith⟩
    · exact ⟨b - a, rfl, by linarith⟩

theorem breaksHHMM_ok {bs : List (String × String)}
    (h : ∀ b ∈ bs, timeInputOk b.1 ∧ timeInputOk b.2) :
    ∃ q : ℚ, getTotalBreakMinutesHHMM bs = some q ∧ 0 ≤ q := by
  induction bs with
  | nil => exact ⟨0, rfl, le_refl 0⟩
  | cons b rest ih =>
      obtain ⟨q, hq, hq0⟩ := ih (fun x hx => h x (by simp [hx]))
      rw [getTotalBreakMinutesHHMM, hq]
      by_cases hb : b.1 ≠ "" ∧ b.2 ≠ ""
      · obtain ⟨p, hp, hp0⟩ := calcHHMM_ok (h b (by simp)).1 (h b (by simp)).2
        rw [if_pos hb, hp]
        exact ⟨p + q, rfl, by linarith⟩
      · rw [if_neg hb]
        exact ⟨0 + q, rfl, by linarith⟩

/-- **C6**: every constructed shift record satisfies
`workingMinutes = max(shiftMinutes − breakMinutes, 0)`, hence
`0 ≤ workingMinutes ≤ shiftMinutes`, for any start/end times and any
sequence of breaks — unconditionally in the Supabase variant, and in the
localStorage/IndexedDB variant for every value its `type="time"` fields
can hold. -/
theorem workingMinutes_invariant :
    (∀ (f : FormB) (e : ShiftEntry), submitB f = some e →
       e.workingMinutes = max (e.shiftMinutes - e.breakMinutes) 0 ∧
       0 ≤ e.workingMinutes ∧ e.workingMinutes ≤ e.shiftMinutes) ∧
    (∀ f : FormA, timeInputOk f.startTime → timeInputOk f.endTime →
       (∀ b ∈ f.breaks, timeInputOk b.1 ∧ timeInputOk b.2) →
       ∃ w sm bm : ℚ,
         (buildEntryA f).shiftMinutes = some sm ∧
         (buildEntryA f).breakMinutes = some bm ∧
         (buildEntryA f).workingMinutes = some w ∧
         w = max (sm - bm) 0 ∧ 0 ≤ w ∧ w ≤ sm) := by
  constructor
  · intro f e hsub
    rw [submitB] at hsub
    split_ifs at hsub with hval
    have he : e = buildEntryB f := (Option.some_inj.mp hsub).symm
    subst he
    refine ⟨rfl, le_max_right _ _, ?_⟩
    have h1 := calc12h_nonneg f.startTime f.endTime
    have h2 := breaks12h_nonneg f.breaks
    show max (calculateTimeDifferenceMinutes12h f.startTime f.endTime -
        getTotalBreakMinutes12h f.breaks) 0 ≤
      calculateTimeDifferenceMinutes12h f.startTime f.endTime
    apply max_le <;> omega
  · intro f hs ht hb
    obtain ⟨sm, hsm, hsm0⟩ := calcHHMM_ok hs ht
    obtain ⟨bm, hbm, hbm0⟩ := breaksHHMM_ok hb
    refine ⟨max (sm - bm) 0, sm, bm, hsm, hbm, ?_, rfl, le_max_right _ _, ?_⟩
    · show nanMax
        (nanSub (calculateTimeDifferenceMinutesHHMM f.startTime f.endTime)
          (getTotalBreakMinutesHHMM f.breaks)) (some 0) = some (max (sm - bm) 0)
      rw [hsm, hbm]
      rfl
    · apply max_le
      · linarith
      · exact hsm0

/-- Witness: the C6 invariant at a concrete Supabase-variant submission. -/
theorem workingMinutes_invariant_witness :
    submitB formBreakShift = some (buildEntryB formBreakShift) ∧
    ((buildEntryB formBreakShift).workingMinutes =
      max ((buildEntryB formBreakShift).shiftMinutes -
        (buildEntryB formBreakShift).breakMinutes) 0 ∧
     0 ≤ (buildEntryB formBreakShift).workingMinutes ∧
     (buildEntryB formBreakShift).workingMinutes ≤
       (buildEntryB formBreakShift).shiftMinutes) :=
  ⟨by rw [submitB, if_pos ⟨by decide, by decide⟩],
   workingMinutes_invariant.1 formBreakShift (buildEntryB formBreakShift)
     (by rw [submitB, if_pos ⟨by decide, by decide⟩])⟩

/-! ## Zero-duration hourly reporting (claim C2) -/

theorem toFixed2Str_zero : toFixed2Str (0 : ℚ) = "0.00" := by
  have hfl : (⌊(0 : ℚ) * 100 + 1 / 2⌋ : ℤ) = 0 := by norm_num
  simp only [toFixed2Str, toFixed2StrNonneg, if_neg (lt_irrefl (0 : ℚ)), hfl]
  decide

/-- The stored `hourly` is definitionally the guarded quotient. -/
theorem buildEntryB_hourly_eq (f : FormB) :
    (buildEntryB f).hourly =
      (if 0 < (buildEntryB f).workingMinutes then
        (buildEntryB f).net / (((buildEntryB f).workingMinutes : ℚ) / 60)
      else 0) := rfl

/-- **C2 (amended)**: for every submission whose `workingMinutes` is 0,
the persisted record's `hourly` is the number 0 and the entries table
renders it as `$0.00`; only the live form preview shows the `'–'`
placeholder. -/
theorem hourly_zero_stored_and_rendered (f : FormB)
    (h : (buildEntryB f).workingMinutes = 0) :
    (buildEntryB f).hourly = 0 ∧
    renderHourlyCellB (buildEntryB f) = "$0.00" ∧
    hourlyPreviewB f = "–" := by
  have hh : (buildEntryB f).hourly = 0 := by
    rw [buildEntryB_hourly_eq, h]
    norm_num
  refine ⟨hh, ?_, ?_⟩
  · show "$" ++ toFixed2Str (buildEntryB f).hourly = "$0.00"
    rw [hh, toFixed2Str_zero]
    decide
  · have h' : max (calculateTimeDifferenceMinutes12h f.startTime f.endTime -
        getTotalBreakMinutes12h f.breaks) 0 = 0 := h
    simp only [hourlyPreviewB, h']
    cases hg : parseFloatQ f.netEarnings <;> simp

/-- Witness: the C2 amended statement at a concrete zero-duration
submission. -/
theorem hourly_zero_stored_and_rendered_witness :
    (buildEntryB formZeroShift).workingMinutes = 0 ∧
    ((buildEntryB formZeroShift).hourly = 0 ∧
     renderHourlyCellB (buildEntryB formZeroShift) = "$0.00" ∧
     hourlyPreviewB formZeroShift = "–") :=
  ⟨by decide, hourly_zero_stored_and_rendered formZeroShift (by decide)⟩

/-- **C2 (counterexample)**: a concrete zero-duration record whose stored
`hourly` is the number 0 and whose rendered cell is `$0.00`, not a
placeholder. -/
theorem hourly_zero_placeholder_cex :
    (buildEntryB formZeroShift).workingMinutes = 0 ∧
    (buildEntryB formZeroShift).hourly = 0 ∧
    renderHourlyCellB (buildEntryB formZeroShift) = "$0.00" ∧
    renderHourlyCellB (buildEntryB formZeroShift) ≠ "–" := by
  have hw : (buildEntryB formZeroShift).workingMinutes = 0 := by decide
  have hh : (buildEntryB formZeroShift).hourly = 0 := by
    rw [buildEntryB_hourly_eq, hw]
    norm_num
  have hr : renderHourlyCellB (buildEntryB formZeroShift) = "$0.00" := by
    show "$" ++ toFixed2Str (buildEntryB formZeroShift).hourly = "$0.00"
    rw [hh, toFixed2Str_zero]
    decide
  exact ⟨hw, hh, hr, by rw [hr]; decide⟩

/-! ## Rounding before persistence (claim C1) -/

/-- Generic field evaluation of the localStorage/IndexedDB entry builder
when the odometer readings and the price parse. -/
theorem buildEntryA_rounded_fields (f : FormA) (ms me p : ℚ)
    (hms : parseCommaNumber f.milesStart = some ms)
    (hme : parseCommaNumber f.milesEnd = some me)
    (hp : parseFloatQ f.dollarsPerGal = some p) :
    (buildEntryA f).milesStart = ms ∧
    (buildEntryA f).milesEnd = me ∧
    (buildEntryA f).milesDriven = round2 (me - ms) ∧
    (buildEntryA f).gallons = round2 ((me - ms) / MPG_A) ∧
    (buildEntryA f).pricePerGal = p ∧
    (buildEntryA f).gasCost = round2 (((me - ms) / MPG_A) * p) := by
  have hmf : milesFullA f = some (me - ms) := by
    rw [milesFullA, hms, hme]
  have hgf : gallonsFullA f = some ((me - ms) / MPG_A) := by
    rw [gallonsFullA, hmf]
    rfl
  have hcf : gasCostFullA f = some (((me - ms) / MPG_A) * p) := by
    rw [gasCostFullA, hgf, hp]
  refine ⟨?_, ?_, ?_, ?_, ?_, ?_⟩
  · show (parseCommaNumber f.milesStart).getD 0 = ms
    rw [hms]
    rfl
  · show (parseCommaNumber f.milesEnd).getD 0 = me
    rw [hme]
    rfl
  · show ((milesFullA f).map round2).getD 0 = round2 (me - ms)
    rw [hmf]
    rfl
  · show ((gallonsFullA f).map round2).getD 0 = round2 ((me - ms) / MPG_A)
    rw [hgf]
    rfl
  · show (parseFloatQ f.dollarsPerGal).getD 0 = p
    rw [hp]
    rfl
  · show ((gasCostFullA f).map round2).getD 0 = round2 (((me - ms) / MPG_A) * p)
    rw [hcf]
    rfl

theorem parseCommaNumber_1000 : parseCommaNumber "1000" = some 1000 := by
  rw [show parseCommaNumber "1000" = some (((1000 : ℕ) : ℚ)) from rfl]
  norm_num

theorem parseCommaNumber_1100 : parseCommaNumber "1100" = some 1100 := by
  rw [show parseCommaNumber "1100" = some (((1100 : ℕ) : ℚ)) from rfl]
  norm_num

theorem parseFloatQ_defaultPrice : parseFloatQ "3.272" = some DEFAULT_GAS_PRICE := by
  rw [show parseFloatQ "3.272" =
      some (((3 : ℕ) : ℚ) + ((272 : ℕ) : ℚ) / ((10 : ℚ) ^ (3 : ℕ))) from rfl]
  rw [show (DEFAULT_GAS_PRICE : ℚ) = 3.272 from rfl]
  norm_num

/-- **C1 (amended)**: the engine does not retain full precision: the
persisted `milesDriven`, `gallons` and `gasCost` are the displayed
`toFixed(2)` values re-parsed, i.e. rounded to 2 fractional digits before
persistence (`gasCost` being the rounding of the full-precision
`gallons × pricePerGal`). -/
theorem deriveShift_rounds_at_display (f : FormA) (ms me p : ℚ)
    (hms : parseCommaNumber f.milesStart = some ms)
    (hme : parseCommaNumber f.milesEnd = some me)
    (hp : parseFloatQ f.dollarsPerGal = some p) :
    (buildEntryA f).milesDriven = round2 (me - ms) ∧
    (buildEntryA f).gallons = round2 ((me - ms) / MPG_A) ∧
    (buildEntryA f).gasCost = round2 (((me - ms) / MPG_A) * p) ∧
    (buildEntryA f).pricePerGal = p :=
  let h := buildEntryA_rounded_fields f ms me p hms hme hp
  ⟨h.2.2.1, h.2.2.2.1, h.2.2.2.2.2, h.2.2.2.2.1⟩

/-- Witness: the C1 amended statement at odometer readings 1000 → 1100. -/
theorem deriveShift_rounds_at_display_witness :
    parseCommaNumber formMilesA.milesStart = some 1000 ∧
    parseCommaNumber formMilesA.milesEnd = some 1100 ∧
    parseFloatQ formMilesA.dollarsPerGal = some DEFAULT_GAS_PRICE ∧
    ((buildEntryA formMilesA).milesDriven = round2 (1100 - 1000) ∧
     (buildEntryA formMilesA).gallons = round2 ((1100 - 1000) / MPG_A) ∧
     (buildEntryA formMilesA).gasCost =
       round2 (((1100 - 1000) / MPG_A) * DEFAULT_GAS_PRICE) ∧
     (buildEntryA formMilesA).pricePerGal = DEFAULT_GAS_PRICE) :=
  ⟨parseCommaNumber_1000, parseCommaNumber_1100, parseFloatQ_defaultPrice,
   deriveShift_rounds_at_display formMilesA 1000 1100 DEFAULT_GAS_PRICE
     parseCommaNumber_1000 parseCommaNumber_1100 parseFloatQ_defaultPrice⟩

/-- **C1 (counterexample)**: with `milesStart = 1000`, `milesEnd = 1100`,
`MPG = 26`, the persisted gallons are `3.85 ≠ 100/26`, and the persisted
`gasCost` differs from `gallons × pricePerGal`. -/
theorem deriveShift_full_precision_cex :
    (buildEntryA formMilesA).milesDriven = 100 ∧
    (buildEntryA formMilesA).pricePerGal = DEFAULT_GAS_PRICE ∧
    ¬((buildEntryA formMilesA).gallons =
        (buildEntryA formMilesA).milesDriven / 26) ∧
    ¬((buildEntryA formMilesA).gasCost =
        (buildEntryA formMilesA).gallons * (buildEntryA formMilesA).pricePerGal) := by
  obtain ⟨h1, h2, h3, h4, h5, h6⟩ :=
    buildEntryA_rounded_fields formMilesA 1000 1100 DEFAULT_GAS_PRICE
      parseCommaNumber_1000 parseCommaNumber_1100 parseFloatQ_defaultPrice
  have hdp : (DEFAULT_GAS_PRICE : ℚ) = 3.272 := rfl
  have hmpg : (MPG_A : ℚ) = 26 := rfl
  have hmd : round2 ((1100 : ℚ) - 1000) = 100 := by
    rw [round2, if_neg (by norm_num)]
    norm_num
  have hg : round2 (((1100 : ℚ) - 1000) / MPG_A) = 77 / 20 := by
    rw [round2, if_neg (by rw [hmpg]; norm_num), hmpg]
    norm_num
  have hgc : round2 ((((1100 : ℚ) - 1000) / MPG_A) * DEFAULT_GAS_PRICE) = 629 / 50 := by
    rw [round2, if_neg (by rw [hmpg, hdp]; norm_num), hmpg, hdp]
    norm_num
  refine ⟨?_, h5, ?_, ?_⟩
  · rw [h3, hmd]
  · rw [h4, h3, hmd, hg]
    norm_num
  · rw [h6, h4, h5, hg, hgc, hdp]
    norm_num

/-! ## Week buckets across a year boundary (claim C3) -/

/-- **C3 (amended)**: two dates sharing the anchor weekday get the same
week number (which is computed against January 1 of the anchor day's own
year), but the bucket's year component is the record date's own calendar
year, so two dates of one week share a bucket exactly when their calendar
years agree — dates of a week spanning a year boundary land in different
buckets. -/
theorem weekBucket_same_week :
    (∀ d1 d2 : CivilDate, thuAnchor d1 = thuAnchor d2 →
       getWeekNumberThu d1 = getWeekNumberThu d2 ∧
       (weekBucketThu d1 = weekBucketThu d2 ↔ d1.year = d2.year)) ∧
    (∀ d1 d2 : CivilDate, satAnchor d1 = satAnchor d2 →
       getWeekNumberSat d1 = getWeekNumberSat d2 ∧
       (weekBucketSat d1 = weekBucketSat d2 ↔ d1.year = d2.year)) := by
  constructor
  · intro d1 d2 ha
    have hw : getWeekNumberThu d1 = getWeekNumberThu d2 := by
      rw [getWeekNumberThu, getWeekNumberThu, ha]
    refine ⟨hw, ?_⟩
    rw [weekBucketThu, weekBucketThu, Prod.mk.injEq, hw]
    simp
  · intro d1 d2 ha
    have hw : getWeekNumberSat d1 = getWeekNumberSat d2 := by
      rw [getWeekNumberSat, getWeekNumberSat, ha]
    refine ⟨hw, ?_⟩
    rw [weekBucketSat, weekBucketSat, Prod.mk.injEq, hw]
    simp

/-- Witness: the C3 amended statement at the 2025/2026 year boundary. -/
theorem weekBucket_same_week_witness :
    thuAnchor ⟨2025, 12, 30⟩ = thuAnchor ⟨2026, 1, 2⟩ ∧
    (getWeekNumberThu ⟨2025, 12, 30⟩ = getWeekNumberThu ⟨2026, 1, 2⟩ ∧
     (weekBucketThu ⟨2025, 12, 30⟩ = weekBucketThu ⟨2026, 1, 2⟩ ↔
       (⟨2025, 12, 30⟩ : CivilDate).year = (⟨2026, 1, 2⟩ : CivilDate).year)) :=
  ⟨by decide, weekBucket_same_week.1 ⟨2025, 12, 30⟩ ⟨2026, 1, 2⟩ (by decide)⟩

/-- **C3 (counterexample)**: Tue 2025-12-30 and Fri 2026-01-02 lie in the
same anchored week (same nearest Thursday, namely 2026-01-01) and get the
same week number 1, yet their buckets differ because the year is taken
from the date's own calendar year; likewise for the Saturday-anchor
variant with 2025-12-29. -/
theorem weekBucket_year_boundary_cex :
    thuAnchor ⟨2025, 12, 30⟩ = thuAnchor ⟨2026, 1, 2⟩ ∧
    getWeekNumberThu ⟨2025, 12, 30⟩ = 1 ∧
    getWeekNumberThu ⟨2026, 1, 2⟩ = 1 ∧
    weekBucketThu ⟨2025, 12, 30⟩ ≠ weekBucketThu ⟨2026, 1, 2⟩ ∧
    satAnchor ⟨2025, 12, 29⟩ = satAnchor ⟨2026, 1, 2⟩ ∧
    getWeekNumberSat ⟨2025, 12, 29⟩ = 1 ∧
    getWeekNumberSat ⟨2026, 1, 2⟩ = 1 ∧
    weekBucketSat ⟨2025, 12, 29⟩ ≠ weekBucketSat ⟨2026, 1, 2⟩ := by
  decide

/-! ## Default gas price (claim C7) -/

theorem toFixed2Str_price : toFixed2Str DEFAULT_GAS_PRICE = "3.27" := by
  have hfl : (⌊(DEFAULT_GAS_PRICE : ℚ) * 100 + 1 / 2⌋ : ℤ) = 327 := by
    rw [show (DEFAULT_GAS_PRICE : ℚ) = 3.272 from rfl]
    norm_num
  rw [toFixed2Str,
    if_neg (by rw [show (DEFAULT_GAS_PRICE : ℚ) = 3.272 from rfl]; norm_num)]
  simp only [toFixed2StrNonneg, hfl]
  decide

theorem pricePerGalReadB_eval : pricePerGalReadB = some (327 / 100 : ℚ) := by
  rw [pricePerGalReadB, priceDisplayB, toFixed2Str_price]
  rw [show parseFloatQ (String.mk (removeFirstDollar ("$" ++ "3.27").data)) =
      some (((3 : ℕ) : ℚ) + ((27 : ℕ) : ℚ) / ((10 : ℚ) ^ (2 : ℕ))) from rfl]
  norm_num

theorem gallonsFullB_formMilesB :
    gallonsFullB formMilesB = some (((1100 : ℚ) - 1000) / MPG_B) := by
  have h1 : parseCommaNumber formMilesB.milesStart = some 1000 :=
    parseCommaNumber_1000
  have h2 : parseCommaNumber formMilesB.milesEnd = some 1100 :=
    parseCommaNumber_1100
  have hmf : milesFullB formMilesB = some ((1100 : ℚ) - 1000) := by
    rw [milesFullB, h1, h2]
  rw [gallonsFullB, hmf]
  rfl

/-- **C7 (amended)**: the default price constant is 3.272, but the
Supabase variant displays it as `$3.27` and the persisted record carries
the re-parsed 3.27, with `gasCost` computed from 3.27; only the
localStorage variant (which fills the price input with `"3.272"`)
persists 3.272 exactly. -/
theorem default_gas_price_displayed_value :
    DEFAULT_GAS_PRICE = 3.272 ∧
    (∀ f : FormB, (buildEntryB f).pricePerGal = 327 / 100) ∧
    (∀ (f : FormB) (g : ℚ), gallonsFullB f = some g →
       (buildEntryB f).gasCost = round2 (g * (327 / 100))) ∧
    (∀ f : FormA, f.dollarsPerGal = "3.272" →
       (buildEntryA f).pricePerGal = DEFAULT_GAS_PRICE) := by
  refine ⟨rfl, ?_, ?_, ?_⟩
  · intro f
    show pricePerGalReadB.getD 0 = 327 / 100
    rw [pricePerGalReadB_eval]
    rfl
  · intro f g hg
    have hcf : gasCostFullB f = some (g * (327 / 100)) := by
      rw [gasCostFullB, hg, pricePerGalReadB_eval]
    show ((gasCostFullB f).map round2).getD 0 = round2 (g * (327 / 100))
    rw [hcf]
    rfl
  · intro f hf
    show (parseFloatQ f.dollarsPerGal).getD 0 = DEFAULT_GAS_PRICE
    rw [hf, parseFloatQ_defaultPrice]
    rfl

/-- Witness: the C7 amended `gasCost` clause at odometer readings
1000 → 1100. -/
theorem default_gas_price_displayed_value_witness :
    gallonsFullB formMilesB = some (((1100 : ℚ) - 1000) / MPG_B) ∧
    (buildEntryB formMilesB).gasCost =
      round2 ((((1100 : ℚ) - 1000) / MPG_B) * (327 / 100)) :=
  ⟨gallonsFullB_formMilesB,
   default_gas_price_displayed_value.2.2.1 formMilesB _ gallonsFullB_formMilesB⟩

/-- **C7 (counterexample)**: a Supabase-variant record (the price field
does not exist there, so the default is always in effect) whose persisted
`pricePerGal` is 3.27, not 3.272, and whose `gasCost` is not the one
computed from 3.272. -/
theorem default_gas_price_not_persisted_cex :
    DEFAULT_GAS_PRICE = 3.272 ∧
    (buildEntryB formMilesB).pricePerGal = 327 / 100 ∧
    (buildEntryB formMilesB).pricePerGal ≠ DEFAULT_GAS_PRICE ∧
    (buildEntryB formMilesB).gasCost ≠
      round2 ((((1100 : ℚ) - 1000) / MPG_B) * DEFAULT_GAS_PRICE) := by
  have hm : (MPG_B : ℚ) = 309 / 10 := by
    rw [show (MPG_B : ℚ) = 30.9 from rfl]
    norm_num
  have hpp : (buildEntryB formMilesB).pricePerGal = 327 / 100 := by
    show pricePerGalReadB.getD 0 = 327 / 100
    rw [pricePerGalReadB_eval]
    rfl
  have hcf : gasCostFullB formMilesB =
      some ((((1100 : ℚ) - 1000) / MPG_B) * (327 / 100)) := by
    rw [gasCostFullB, gallonsFullB_formMilesB, pricePerGalReadB_eval]
  have hgc : (buildEntryB formMilesB).gasCost =
      round2 ((((1100 : ℚ) - 1000) / MPG_B) * (327 / 100)) := by
    show ((gasCostFullB formMilesB).map round2).getD 0 = _
    rw [hcf]
    rfl
  have e1 : round2 ((((1100 : ℚ) - 1000) / MPG_B) * (327 / 100)) = 529 / 50 := by
    rw [hm, round2, if_neg (by norm_num)]
    norm_num
  have e2 : round2 ((((1100 : ℚ) - 1000) / MPG_B) * DEFAULT_GAS_PRICE) = 1059 / 100 := by
    rw [hm, show (DEFAULT_GAS_PRICE : ℚ) = 3.272 from rfl, round2,
      if_neg (by norm_num)]
    norm_num
  refine ⟨rfl, hpp, ?_, ?_⟩
  · rw [hpp, show (DEFAULT_GAS_PRICE : ℚ) = 3.272 from rfl]
    norm_num
  · rw [hgc, e1, e2]
    norm_num

/-! ## Backup import/export (claims C8, C10) and summaries (claim C9) -/

theorem contains_eq_true_iff {l : List String} {a : String} :
    l.contains a = true ↔ a ∈ l := by
  rw [show l.contains a = l.elem a from rfl, List.elem_eq_mem]
  exact decide_eq_true_iff

/-- **C8**: restore de-duplicates by date against the existing collection:
re-importing an export into itself is a no-op, importing into an empty
collection reproduces the exported entries exactly, and the records of a
date that is already present are exactly those of the existing
collection. -/
theorem importFromJson_dedup_by_date :
    (∀ es : List ShiftEntry, importEntries es (exportedEntries es) = es) ∧
    (∀ inc : List ShiftEntry, importEntries [] inc = inc) ∧
    (∀ (es inc : List ShiftEntry) (d : String),
       (es.map (fun e => e.date)).contains d = true →
       (importEntries es inc).filter (fun e => e.date == d) =
         es.filter (fun e => e.date == d)) := by
  refine ⟨?_, ?_, ?_⟩
  · intro es
    rw [importEntries, exportedEntries]
    have hf : es.filter
        (fun e => !((es.map (fun e => e.date)).contains e.date)) = [] := by
      rw [List.filter_eq_nil_iff]
      intro e he
      simp only [Bool.not_eq_true', Bool.not_eq_false]
      exact contains_eq_true_iff.mpr (List.mem_map.mpr ⟨e, he, rfl⟩)
    rw [hf, List.append_nil]
  · intro inc
    rw [importEntries]
    have hf : inc.filter
        (fun e => !((([] : List ShiftEntry).map (fun e => e.date)).contains e.date))
        = inc := by
      rw [List.filter_eq_self]
      intro a _
      rfl
    rw [hf, List.nil_append]
  · intro es inc d hd
    rw [importEntries, List.filter_append]
    have h2 : (inc.filter
        (fun e => !((es.map (fun e => e.date)).contains e.date))).filter
        (fun e => e.date == d) = [] := by
      rw [List.filter_eq_nil_iff]
      intro e he hbeq
      have hdate : e.date = d := beq_iff_eq.mp hbeq
      have hmem := List.mem_filter.mp he
      have hc : (es.map (fun e => e.date)).contains e.date = true := by
        rw [hdate]
        exact hd
      rw [hc] at hmem
      exact absurd hmem.2 (by simp)
    rw [h2, List.append_nil]

/-- Witness: the C8 already-present-date clause at concrete collections. -/
theorem importFromJson_dedup_by_date_witness :
    ([entryJan1].map (fun e => e.date)).contains "2025-01-01" = true ∧
    (importEntries [entryJan1] [entryJan1Dup]).filter
        (fun e => e.date == "2025-01-01") =
      [entryJan1].filter (fun e => e.date == "2025-01-01") :=
  ⟨by decide,
   importFromJson_dedup_by_date.2.2 [entryJan1] [entryJan1Dup] "2025-01-01"
     (by decide)⟩

/-- **C10**: the de-duplication set is computed once from the pre-existing
collection only, so incoming entries sharing a date that is not already
present are all appended: their full multiplicity survives the import. -/
theorem importFromJson_dedup_set_fixed (es inc : List ShiftEntry) (d : String)
    (hd : (es.map (fun e => e.date)).contains d = false) :
    List.countP (fun e => e.date == d) (importEntries es inc) =
      List.countP (fun e => e.date == d) inc := by
  rw [importEntries, List.countP_append]
  have h0 : List.countP (fun e => e.date == d) es = 0 := by
    rw [List.countP_eq_zero]
    intro e he hbeq
    have hdate : e.date = d := beq_iff_eq.mp hbeq
    have hc : (es.map (fun e => e.date)).contains e.date = true :=
      contains_eq_true_iff.mpr (List.mem_map.mpr ⟨e, he, rfl⟩)
    rw [hdate, hd] at hc
    exact absurd hc (by simp)
  rw [h0, List.countP_filter]
  have hpt : (fun (a : ShiftEntry) => (a.date == d) &&
      !((es.map (fun e => e.date)).contains a.date)) =
      (fun (a : ShiftEntry) => a.date == d) := by
    funext a
    by_cases had : a.date = d
    · rw [had, hd]
      simp
    · have : (a.date == d) = false := by
        simp [had]
      rw [this]
      simp
  rw [hpt]
  omega

/-- Witness: the C10 multiplicity preservation at two incoming records of
one fresh date. -/
theorem importFromJson_dedup_set_fixed_witness :
    (([] : List ShiftEntry).map (fun e => e.date)).contains "2025-01-02" = false ∧
    List.countP (fun e => e.date == "2025-01-02")
        (importEntries [] [entryJan2, entryJan2b]) =
      List.countP (fun e => e.date == "2025-01-02") [entryJan2, entryJan2b] ∧
    List.countP (fun e => e.date == "2025-01-02") [entryJan2, entryJan2b] = 2 :=
  ⟨by decide,
   importFromJson_dedup_set_fixed [] [entryJan2, entryJan2b] "2025-01-02"
     (by decide),
   by decide⟩

/-- **C9**: summarizing the empty collection yields the all-placeholder
view for any reference date and toggle state (no failure), and the
average-hourly is guarded to a placeholder whenever the total working
minutes are zero, so no division is attempted. -/
theorem summarize_empty_placeholder :
    (∀ (today : CivilDate) (sg : Bool),
       updateSummariesB [] today sg = ⟨"–", "–", "–"⟩) ∧
    (∀ (entries : List ShiftEntry) (today : CivilDate) (sg : Bool),
       (entries.map (fun e => (e.workingMinutes : ℚ))).sum = 0 →
       (updateSummariesB entries today sg).avgHourly = "–") := by
  constructor
  · intro today sg
    simp [updateSummariesB]
  · intro entries today sg h
    by_cases hlen : entries.length = 0
    · rw [updateSummariesB, if_pos hlen]
    · simp only [updateSummariesB, if_neg hlen, h]
      have hz : ¬((0 : ℚ) < 0) := lt_irrefl 0
      cases sg
      · simp [hz]
      · simp [hz]

/-- Witness: the C9 zero-minutes guard at a concrete one-record
collection. -/
theorem summarize_empty_placeholder_witness :
    ([entryZeroWork].map (fun e => (e.workingMinutes : ℚ))).sum = 0 ∧
    (updateSummariesB [entryZeroWork] ⟨2025, 1, 15⟩ false).avgHourly = "–" :=
  ⟨by simp [entryZeroWork],
   summarize_empty_placeholder.2 [entryZeroWork] ⟨2025, 1, 15⟩ false
     (by simp [entryZeroWork])⟩
